import Mathlib

/-!
Verification development for the EchoInTrack request-tracking service
(`src/v10/app.py`).

Modelling conventions for the shallow embedding:
* Timestamps are minutes of wall-clock time in the reference timezone
  (Europe/London), counted from an epoch that falls on a Monday 00:00.
  Thus `t / 1440` is the calendar day number of `t` and day `d % 7` is the
  Python `date.weekday()` value (Monday = 0, ..., Saturday = 5, Sunday = 6).
* The configured bank-holiday set (`UK_BANK_HOLIDAYS` in the source) is a
  `List Nat` of day numbers.
* Database rows are Lean structures; SQL `UPDATE ... WHERE id = ?`,
  `DELETE FROM ... WHERE id = ?` and `INSERT` become `List.map`,
  `List.filter` and append on the list of rows.
-/

namespace EchoInTrack

/-- Embeds `is_weekend_or_bank_holiday` (app.py:53): true iff the day is a
Saturday (`weekday == 5`), a Sunday (`weekday == 6`), or listed in the
configured bank-holiday set. -/
def is_weekend_or_bank_holiday (holidays : List Nat) (d : Nat) : Bool :=
  (d % 7 == 5 || d % 7 == 6) || decide (d ∈ holidays)

theorem mem_le_foldr_max (l : List Nat) (x : Nat) (hx : x ∈ l) :
    x ≤ l.foldr max 0 := by
  induction l with
  | nil => cases hx
  | cons a l ih =>
    rcases List.mem_cons.mp hx with h | h
    · subst h
      exact le_max_left _ _
    · exact le_trans (ih h) (le_max_right _ _)

/-- The hour-stepping loop of `add_working_hours_uk` always finds a later
hour whose calendar date is a working day: the holiday set is finite, so a
Monday beyond every configured holiday works. -/
theorem exists_working_step (holidays : List Nat) (t : Nat) :
    ∃ k, 0 < k ∧ is_weekend_or_bank_holiday holidays ((t + 60 * k) / 1440) = false := by
  have hmax : ∀ x ∈ holidays, x ≤ holidays.foldr max 0 :=
    fun x hx => mem_le_foldr_max holidays x hx
  set M := holidays.foldr max 0 with hM
  set D := 7 * (M + t / 1440 + 1) with hDdef
  have hnotmem : D ∉ holidays := by
    intro hmem
    have := hmax D hmem
    omega
  refine ⟨(1440 * D - t + 59) / 60, by omega, ?_⟩
  have hday : (t + 60 * ((1440 * D - t + 59) / 60)) / 1440 = D := by omega
  rw [hday]
  have h7 : D % 7 = 0 := by omega
  simp [is_weekend_or_bank_holiday, h7, hnotmem]

/-- One iteration block of the `while` loop in `add_working_hours_uk`
(app.py:200-204): keep adding one hour (60 minutes) until the resulting
hour's calendar date is a working day; that hour is the one that consumes a
unit of `remaining_hours`. `Nat.find` returns the least such step count,
exactly as the linear scan of the loop does. -/
def nextCountedHour (holidays : List Nat) (t : Nat) : Nat :=
  t + 60 * Nat.find (exists_working_step holidays t)

theorem nextCountedHour_eq (holidays : List Nat) (t j : Nat) (hj : 0 < j)
    (hw : is_weekend_or_bank_holiday holidays ((t + 60 * j) / 1440) = false)
    (hmin : ∀ i < j, 0 < i →
      is_weekend_or_bank_holiday holidays ((t + 60 * i) / 1440) = true) :
    nextCountedHour holidays t = t + 60 * j := by
  unfold nextCountedHour
  have hfind : Nat.find (exists_working_step holidays t) = j := by
    rw [Nat.find_eq_iff]
    refine ⟨⟨hj, hw⟩, ?_⟩
    intro n hn hcon
    rcases hcon with ⟨hpos, hfalse⟩
    have := hmin n hn hpos
    rw [this] at hfalse
    cases hfalse
  rw [hfind]

/-- The `while remaining_hours > 0` loop of `add_working_hours_uk`, indexed
by the number of working hours still to consume. -/
def addWorkingHoursLoop (holidays : List Nat) : Nat → Nat → Nat
  | t, 0 => t
  | t, h + 1 => addWorkingHoursLoop holidays (nextCountedHour holidays t) h

/-- Embeds `add_working_hours_uk` (app.py:190-205). A naive `start_date` is
tagged with the Europe/London zone, which leaves its wall-clock reading (our
representation) unchanged; the loop then advances hour by hour, consuming an
hour only when the resulting hour's date is a working day. `hours` is an
`Int` because the Python parameter may be any integer; the loop guard
`remaining_hours > 0` means only its positive part drives iterations. -/
def add_working_hours_uk (holidays : List Nat) (start_date : Nat) (hours : Int) : Nat :=
  addWorkingHoursLoop holidays start_date hours.toNat

theorem addWorkingHoursLoop_add (holidays : List Nat) (a b : Nat) :
    ∀ t, addWorkingHoursLoop holidays t (a + b) =
      addWorkingHoursLoop holidays (addWorkingHoursLoop holidays t a) b := by
  induction a with
  | zero =>
    intro t
    simp [addWorkingHoursLoop]
  | succ a ih =>
    intro t
    have h1 : a + 1 + b = (a + b) + 1 := by omega
    rw [h1]
    simp only [addWorkingHoursLoop]
    exact ih (nextCountedHour holidays t)

theorem addWorkingHoursLoop_of_all_working (holidays : List Nat) :
    ∀ (h : Nat) (t : Nat),
      (∀ i < h, is_weekend_or_bank_holiday holidays ((t + 60 * (i + 1)) / 1440) = false) →
      addWorkingHoursLoop holidays t h = t + 60 * h := by
  intro h
  induction h with
  | zero =>
    intro t _
    simp [addWorkingHoursLoop]
  | succ n ih =>
    intro t hw
    have hnext : nextCountedHour holidays t = t + 60 := by
      have h0 := hw 0 (by omega)
      have := nextCountedHour_eq holidays t 1 (by omega)
        (by simpa using h0) (by intro i hi hpos; omega)
      simpa using this
    have hrest : addWorkingHoursLoop holidays (t + 60) n = (t + 60) + 60 * n := by
      apply ih
      intro i hi
      have := hw (i + 1) (by omega)
      have harith : t + 60 * (i + 1 + 1) = t + 60 + 60 * (i + 1) := by ring
      rw [harith] at this
      exact this
    simp only [addWorkingHoursLoop]
    rw [hnext, hrest]
    omega

/-- The five values accepted by the `/api/add_request` validation
(app.py:440): `'PURPLE PATHWAY'`, `'RED PATHWAY'`, `'AMBER PATHWAY'`,
`'GREEN PATHWAY'`, `'REJECTED'`. -/
inductive Pathway
  | purple
  | red
  | amber
  | green
  | rejected
deriving DecidableEq

/-- The two values the code ever stores in the `status` column: the schema
default `'pending'` (app.py:237) and `'completed'` (app.py:898). -/
inductive Status
  | pending
  | completed
deriving DecidableEq

/-- One row of the `echo_requests` table (app.py:230-241 plus the
`notes`/`name`/`mrn`/`ward` columns added in `init_db`). The TEXT
`request_id` of the form `"YY.NNNN"` is represented by its two components
`displayYear` (the two-digit year before the dot) and `displaySeq` (the
zero-padded sequence after the dot). -/
structure EchoRequest where
  id : Nat
  displayYear : Nat
  displaySeq : Nat
  pathway : Pathway
  requestTime : Nat
  expectedTime : Nat
  status : Status
  completionTime : Option Nat
  triageDate : Nat
  notes : String
  name : String
  mrn : String
  ward : String
deriving DecidableEq

/-- Expected-time computation inside `add_request` (app.py:452-459):
`expected_time = request_time`, then overwritten by `add_working_hours_uk`
with 1, 24 or 72 hours for the PURPLE, RED and AMBER pathways. -/
def add_request_expected_time (holidays : List Nat) (p : Pathway) (request_time : Nat) : Nat :=
  match p with
  | .purple => add_working_hours_uk holidays request_time 1
  | .red => add_working_hours_uk holidays request_time 24
  | .amber => add_working_hours_uk holidays request_time 72
  | .green => request_time
  | .rejected => request_time

/-- Outcomes of the JSON API endpoints: HTTP 200 `{'status': 'success'}`,
HTTP 400 for a malformed body, HTTP 500 for an internal exception. The
source has no not-found outcome for id-based mutations. -/
inductive ApiResult
  | success
  | badRequest
  | serverError
deriving DecidableEq

/-- Descriptive payload of `/api/add_request` (pathway, request time and the
optional `name`/`mrn`/`ward` fields, app.py:448-464). -/
structure AddPayload where
  pathway : Pathway
  requestTime : Nat
  name : String
  mrn : String
  ward : String
deriving DecidableEq

/-- Embeds the INSERT of `add_request` (app.py:466-483): the new row gets
the freshly allocated display id, the computed expected time, blank notes,
and the schema defaults `status = 'pending'`, `completion_time = NULL`.
`today` is `get_uk_time().date()`, the day stored as `triage_date`. -/
def add_request (holidays : List Nat) (store : List EchoRequest)
    (newId year seq today : Nat) (payload : AddPayload) :
    ApiResult × List EchoRequest :=
  let rt := payload.requestTime
  (ApiResult.success,
    store ++ [{ id := newId
                displayYear := year
                displaySeq := seq
                pathway := payload.pathway
                requestTime := rt
                expectedTime := add_request_expected_time holidays payload.pathway rt
                status := Status.pending
                completionTime := none
                triageDate := today
                notes := ""
                name := payload.name
                mrn := payload.mrn
                ward := payload.ward }])

/-- Embeds `/api/mark_completed` (app.py:881-906): `UPDATE echo_requests SET
status = 'completed', completion_time = ? WHERE id = ?`, then an
unconditional `{'status': 'success'}` — the row count is never checked. -/
def mark_completed (store : List EchoRequest) (reqId : Nat) (completion_time : Nat) :
    ApiResult × List EchoRequest :=
  (ApiResult.success,
    store.map fun r =>
      if r.id = reqId then
        { r with status := Status.completed, completionTime := some completion_time }
      else r)

/-- Embeds `/api/undo_completed` (app.py:930-954): `UPDATE echo_requests SET
status = 'pending', completion_time = NULL WHERE id = ?`, then an
unconditional success response. -/
def undo_completed (store : List EchoRequest) (reqId : Nat) :
    ApiResult × List EchoRequest :=
  (ApiResult.success,
    store.map fun r =>
      if r.id = reqId then
        { r with status := Status.pending, completionTime := none }
      else r)

/-- Embeds `/api/delete_request` (app.py:908-928): `DELETE FROM
echo_requests WHERE id = ?`, then an unconditional success response. -/
def delete_request (store : List EchoRequest) (reqId : Nat) :
    ApiResult × List EchoRequest :=
  (ApiResult.success, store.filter fun r => decide (r.id ≠ reqId))

/-- Embeds the four descriptive-field endpoints `/api/update_notes`,
`/api/update_name`, `/api/update_mrn`, `/api/update_ward`
(app.py:957-1076): each runs `UPDATE echo_requests SET <field> = ? WHERE
id = ?` and reports success unconditionally. -/
def update_field (store : List EchoRequest) (reqId : Nat)
    (set_field : EchoRequest → String → EchoRequest) (v : String) :
    ApiResult × List EchoRequest :=
  (ApiResult.success, store.map fun r => if r.id = reqId then set_field r v else r)

def set_notes (r : EchoRequest) (v : String) : EchoRequest := { r with notes := v }

def set_name (r : EchoRequest) (v : String) : EchoRequest := { r with name := v }

def set_mrn (r : EchoRequest) (v : String) : EchoRequest := { r with mrn := v }

def set_ward (r : EchoRequest) (v : String) : EchoRequest := { r with ward := v }

/-- One mutating API call against the request store, with the inputs the web
layer supplies. -/
inductive StoreOp
  | add (holidays : List Nat) (newId year seq today : Nat) (payload : AddPayload)
  | markCompleted (reqId : Nat) (now : Nat)
  | undoCompleted (reqId : Nat)
  | deleteReq (reqId : Nat)
  | updateNotes (reqId : Nat) (v : String)
  | updateName (reqId : Nat) (v : String)
  | updateMrn (reqId : Nat) (v : String)
  | updateWard (reqId : Nat) (v : String)

/-- State change performed by one API call. -/
def applyOp (store : List EchoRequest) : StoreOp → List EchoRequest
  | .add holidays newId year seq today payload =>
      (add_request holidays store newId year seq today payload).2
  | .markCompleted reqId now => (mark_completed store reqId now).2
  | .undoCompleted reqId => (undo_completed store reqId).2
  | .deleteReq reqId => (delete_request store reqId).2
  | .updateNotes reqId v => (update_field store reqId set_notes v).2
  | .updateName reqId v => (update_field store reqId set_name v).2
  | .updateMrn reqId v => (update_field store reqId set_mrn v).2
  | .updateWard reqId v => (update_field store reqId set_ward v).2

def applyOps (ops : List StoreOp) (store : List EchoRequest) : List EchoRequest :=
  ops.foldl applyOp store

/-- The §3 invariant: `completion_time` is non-NULL exactly when
`status = 'completed'`. -/
def completionInvariant (r : EchoRequest) : Bool :=
  decide ((r.completionTime ≠ none) ↔ r.status = Status.completed)

/-- Start instant of calendar day `d`: SQLite's `datetime(dates.date)`,
midnight at the beginning of day `d`, in minutes. -/
def dayStart (d : Nat) : Nat := 1440 * d

/-- Embeds the per-request join condition of `/api/get_daily_overdue`
(app.py:678-693) deciding whether request `r` counts as overdue on day `d`:
the pathway is neither GREEN nor REJECTED, the deadline is before the end of
day `d`, the request existed by the end of day `d`, and the row is pending,
or completed strictly after day `d` began, or completed within day `d`
(including its first instant) later than its deadline. SQL comparisons
against a NULL `completion_time` are not satisfied, hence the `match` on the
optional field. -/
def overdue_on_day (r : EchoRequest) (d : Nat) : Bool :=
  decide (r.pathway ≠ Pathway.green) && decide (r.pathway ≠ Pathway.rejected) &&
  decide (r.expectedTime < dayStart (d + 1)) &&
  decide (r.requestTime ≤ dayStart (d + 1)) &&
  (decide (r.status = Status.pending) ||
   (decide (r.status = Status.completed) &&
     (match r.completionTime with
      | none => false
      | some ct => decide (dayStart d < ct))) ||
   (decide (r.status = Status.completed) &&
     (match r.completionTime with
      | none => false
      | some ct =>
        decide (dayStart d ≤ ct) && decide (ct < dayStart (d + 1)) &&
        decide (r.expectedTime < ct))))

/-- The overdue count `/api/get_daily_overdue` reports for day `d`
(`COUNT(DISTINCT r.id)` over the join; row ids are unique, so it is the
number of rows satisfying the join condition). -/
def get_daily_overdue_count (store : List EchoRequest) (d : Nat) : Nat :=
  (store.filter fun r => overdue_on_day r d).length

/-- Worded from the specification, for comparison with `overdue_on_day`: a
request is overdue on day `d` iff its pathway is not GREEN/REJECTED, its
deadline falls before the start of day `d + 1`, it existed by the start of
day `d + 1`, and it is pending, or completed with completion time strictly
after the start of day `d`. -/
def spec_overdue_on_day (r : EchoRequest) (d : Nat) : Bool :=
  decide (r.pathway ≠ Pathway.green) && decide (r.pathway ≠ Pathway.rejected) &&
  decide (r.expectedTime < dayStart (d + 1)) &&
  decide (r.requestTime ≤ dayStart (d + 1)) &&
  (decide (r.status = Status.pending) ||
   (decide (r.status = Status.completed) &&
     (match r.completionTime with
      | none => false
      | some ct => decide (dayStart d < ct))))

/-- The specification's overdue condition amended with the one extra case
the code admits: a request completed exactly at the first instant of day `d`
and later than its deadline is also counted on day `d`. -/
def amended_overdue_on_day (r : EchoRequest) (d : Nat) : Bool :=
  decide (r.pathway ≠ Pathway.green) && decide (r.pathway ≠ Pathway.rejected) &&
  decide (r.expectedTime < dayStart (d + 1)) &&
  decide (r.requestTime ≤ dayStart (d + 1)) &&
  (decide (r.status = Status.pending) ||
   (decide (r.status = Status.completed) &&
     (match r.completionTime with
      | none => false
      | some ct => decide (dayStart d < ct))) ||
   (decide (r.status = Status.completed) &&
     (match r.completionTime with
      | none => false
      | some ct => decide (ct = dayStart d) && decide (r.expectedTime < ct))))

/-- Tier expression of the `ORDER BY` in `/api/get_requests`
(app.py:554-559): completed rows are tested first, so every completed row —
whatever its pathway — lands in tier 3; among the rest, GREEN/REJECTED rows
form tier 2 and the remaining pending SLA rows tier 1. -/
def tier (r : EchoRequest) : Nat :=
  if r.status = Status.completed then 3
  else if r.pathway = Pathway.green ∨ r.pathway = Pathway.rejected then 2
  else 1

/-- The `time_left` column of the CTE (app.py:534-537):
`julianday(expected_time) - julianday(now)`. Julian-day differences order
exactly like differences of our minute timestamps, so we use the latter. -/
def time_left (now : Nat) (r : EchoRequest) : Int :=
  (r.expectedTime : Int) - (now : Int)

/-- `CAST(request_id AS INTEGER)` (app.py:567): SQLite reads the longest
numeric prefix of the TEXT `"YY.NNNN"`, i.e. the two-digit year before the
dot — not the sequence component. -/
def castDisplayId (r : EchoRequest) : Int := r.displayYear

/-- Second `ORDER BY` key (app.py:560-564), `ASC NULLS LAST`: NULL for
completed or GREEN/REJECTED rows, otherwise `time_left`. Within a tier the
key is NULL either for every row or for none, so NULL is encoded as the
constant 0. -/
def sortKey2 (now : Nat) (r : EchoRequest) : Int :=
  if tier r = 1 then time_left now r else 0

/-- Third `ORDER BY` key (app.py:565-568), `DESC` (encoded negated, so that
ascending comparison of the encoding realises the descending SQL order):
`completion_time` for completed rows (always set on rows the code produces;
a NULL is encoded as 0), `CAST(request_id AS INTEGER)` for GREEN/REJECTED
rows, NULL (constant 0) for tier-1 rows. -/
def sortKey3 (r : EchoRequest) : Int :=
  if r.status = Status.completed then -((r.completionTime.getD 0 : Nat) : Int)
  else if r.pathway = Pathway.green ∨ r.pathway = Pathway.rejected then -(castDisplayId r)
  else 0

/-- The complete `ORDER BY` comparison of `/api/get_requests`: tier first,
then the `ASC NULLS LAST` key, then the `DESC` key. -/
def requestsLE (now : Nat) (a b : EchoRequest) : Bool :=
  decide (tier a < tier b) ||
  (decide (tier a = tier b) &&
    (decide (sortKey2 now a < sortKey2 now b) ||
     (decide (sortKey2 now a = sortKey2 now b) && decide (sortKey3 a ≤ sortKey3 b))))

/-- `requestsLE` as a relation, for use with `List.insertionSort`. -/
def reqOrder (now : Nat) (a b : EchoRequest) : Prop := requestsLE now a b = true

instance (now : Nat) : DecidableRel (reqOrder now) :=
  fun a b => instDecidableEqBool (requestsLE now a b) true

instance (now : Nat) : IsTotal EchoRequest (reqOrder now) := by
  constructor
  intro a b
  simp only [reqOrder, requestsLE, Bool.or_eq_true, Bool.and_eq_true, decide_eq_true_eq]
  omega

instance (now : Nat) : IsTrans EchoRequest (reqOrder now) := by
  constructor
  intro a b c hab hbc
  simp only [reqOrder, requestsLE, Bool.or_eq_true, Bool.and_eq_true, decide_eq_true_eq] at *
  omega

/-- Embeds `/api/get_requests` (app.py:518-590): all rows, ordered by the
three-way `ORDER BY`. SQL leaves the relative order of ties unspecified; the
embedding fixes the stable choice (table order preserved), which is what the
deployed SQLite does for this query. The SELECT also relabels pathway
REJECTED as `'GREEN PATHWAY'` in its output column — presentation only, the
ordering reads the stored values — so the embedding returns the rows
themselves. -/
def get_requests (store : List EchoRequest) (now : Nat) : List EchoRequest :=
  List.insertionSort (reqOrder now) store

/-- Renders `str(n).zfill(4)` (app.py:502,508): the decimal digits of `n`
left-padded with `'0'` to width 4. A sequence below 10000 renders as exactly
four digit characters; larger ones render unpadded. -/
def seqChars (n : Nat) : List Char :=
  if n < 10000 then
    [Char.ofNat (48 + n / 1000), Char.ofNat (48 + n / 100 % 10),
     Char.ofNat (48 + n / 10 % 10), Char.ofNat (48 + n % 10)]
  else (Nat.repr n).data

/-- The TEXT `request_id` built as `f"{current_year}.{str(seq).zfill(4)}"`,
as its character list. -/
def reqIdChars (year seq : Nat) : List Char :=
  (Nat.repr year).data ++ ('.' :: seqChars seq)

/-- Byte-wise text comparison, as SQLite's default BINARY collation orders
TEXT values in `ORDER BY request_id DESC`. -/
def strLtB : List Char → List Char → Bool
  | [], [] => false
  | [], _ :: _ => true
  | _ :: _, [] => false
  | a :: as, b :: bs => if a < b then true else if b < a then false else strLtB as bs

/-- The row picked by `SELECT request_id FROM echo_requests WHERE request_id
LIKE 'YY.%' ORDER BY request_id DESC LIMIT 1` (app.py:497): among the stored
sequence numbers of the year (in table order), the one whose rendered id is
largest in text order. -/
def lastRequestSeq (year : Nat) (seqs : List Nat) : Option Nat :=
  seqs.foldl
    (fun acc s =>
      match acc with
      | none => some s
      | some m => if strLtB (reqIdChars year m) (reqIdChars year s) then some s else some m)
    none

/-- Embeds `get_next_request_id` (app.py:489-508) at the level of sequence
numbers: `'YY.0001'` when the year has no rows, otherwise the text-largest
stored sequence plus one. -/
def get_next_request_id (year : Nat) (seqs : List Nat) : Nat :=
  match lastRequestSeq year seqs with
  | none => 1
  | some m => m + 1

/-- Create/delete history against one year's rows: a create allocates via
`get_next_request_id` and inserts the row; a remove physically deletes one
row carrying the given sequence (`/api/delete_request`). -/
inductive IdOp
  | create
  | remove (s : Nat)

/-- Runs a history on the year's stored sequence numbers (in table order)
and returns the final store together with the sequence numbers handed out by
the creates, in order. -/
def runIdOps (year : Nat) : List IdOp → List Nat → List Nat × List Nat
  | [], st => (st, [])
  | IdOp.create :: ops, st =>
    let s := get_next_request_id year st
    let rest := runIdOps year ops (st ++ [s])
    (rest.1, s :: rest.2)
  | IdOp.remove s :: ops, st => runIdOps year ops (st.erase s)

/-- A timestamp as handed to `iso_to_uk_time`: a wall-clock reading plus the
UTC offset (minutes) its timezone designator denotes, or `none` when the
input is naive. -/
structure TsInput where
  wall : Int
  tzOffset : Option Int
deriving DecidableEq

/-- Embeds `convert_to_uk_time` (app.py:146-155) for a non-`None` input. The
Europe/London UTC offset (minutes, as a function of the UTC instant) is the
`londonOffset` parameter. A naive input is localized to **UTC**
(`pytz.UTC.localize`), so its wall reading is taken as the UTC instant
itself; an aware input's instant is its wall reading minus its own offset.
`astimezone(Europe/London)` then yields instant plus the London offset at
that instant. -/
def convert_to_uk_time (londonOffset : Int → Int) (ts : TsInput) : Int :=
  let instant := ts.wall - ts.tzOffset.getD 0
  instant + londonOffset instant

/-- Embeds `iso_to_uk_time` (app.py:167-178) on parseable input: parse the
ISO string (yielding the wall reading and optional offset) and pass it to
`convert_to_uk_time`. This is the function `add_request` stores
`request_time` through (app.py:448). -/
def iso_to_uk_time (londonOffset : Int → Int) (ts : TsInput) : Int :=
  convert_to_uk_time londonOffset ts

/-- Worded from the specification's tier description, for comparison with
the code's ordering: tier 1 = pending and pathway outside {GREEN, REJECTED};
tier 2 = pathway in {GREEN, REJECTED} regardless of status; tier 3 =
completed and pathway outside {GREEN, REJECTED}. -/
def claimTier (r : EchoRequest) : Nat :=
  if r.status = Status.pending ∧ r.pathway ≠ Pathway.green ∧ r.pathway ≠ Pathway.rejected then 1
  else if r.pathway = Pathway.green ∨ r.pathway = Pathway.rejected then 2
  else 3

/-- Worded from the claim: ascending spec-tier; within tier 1 ascending
`time_left`, within tier 2 descending numeric sequence component of the
display id, within tier 3 descending completion time. -/
def claimOrderLE (now : Nat) (a b : EchoRequest) : Bool :=
  decide (claimTier a < claimTier b) ||
  (decide (claimTier a = claimTier b) &&
    ((decide (claimTier a = 1) && decide (time_left now a ≤ time_left now b)) ||
     (decide (claimTier a = 2) && decide (b.displaySeq ≤ a.displaySeq)) ||
     (decide (claimTier a = 3) &&
       decide (b.completionTime.getD 0 ≤ a.completionTime.getD 0))))

/-- The claim's ordering amended to what the `ORDER BY` actually does:
completed rows always form tier 3 (whatever their pathway), the remaining
GREEN/REJECTED rows tier 2, the remaining pending SLA rows tier 1; tier 1 is
ascending in `time_left`, tier 2 descending in `CAST(request_id AS
INTEGER)` — the two-digit year prefix, not the sequence — and tier 3
descending in completion time. Ties are left in table order. -/
def amendedOrder (now : Nat) (a b : EchoRequest) : Prop :=
  tier a < tier b ∨
  (tier a = tier b ∧
    ((tier a = 1 ∧ time_left now a ≤ time_left now b) ∨
     (tier a = 2 ∧ castDisplayId b ≤ castDisplayId a) ∨
     (tier a = 3 ∧ b.completionTime.getD 0 ≤ a.completionTime.getD 0)))

/-- A completed GREEN request with the year's largest sequence number. -/
def exReqA : EchoRequest :=
  { id := 1, displayYear := 25, displaySeq := 3, pathway := Pathway.green,
    requestTime := 0, expectedTime := 0, status := Status.completed,
    completionTime := some 100, triageDate := 0,
    notes := "", name := "", mrn := "", ward := "" }

/-- A pending GREEN request with sequence 1. -/
def exReqB : EchoRequest :=
  { id := 2, displayYear := 25, displaySeq := 1, pathway := Pathway.green,
    requestTime := 0, expectedTime := 0, status := Status.pending,
    completionTime := none, triageDate := 0,
    notes := "", name := "", mrn := "", ward := "" }

/-- A pending GREEN request with sequence 2. -/
def exReqC : EchoRequest :=
  { id := 3, displayYear := 25, displaySeq := 2, pathway := Pathway.green,
    requestTime := 0, expectedTime := 0, status := Status.pending,
    completionTime := none, triageDate := 0,
    notes := "", name := "", mrn := "", ward := "" }

/-- An AMBER request whose deadline expired one minute before the end of day
0 and which was completed exactly at the first instant of day 1. -/
def ex1req : EchoRequest :=
  { id := 1, displayYear := 25, displaySeq := 1, pathway := Pathway.amber,
    requestTime := 0, expectedTime := 1439, status := Status.completed,
    completionTime := some 1440, triageDate := 0,
    notes := "", name := "", mrn := "", ward := "" }

/-- A one-row store whose only id is 1, for exercising the mutation
endpoints with an absent id. -/
def ex3store : List EchoRequest :=
  [{ id := 1, displayYear := 25, displaySeq := 1, pathway := Pathway.red,
     requestTime := 0, expectedTime := 500, status := Status.pending,
     completionTime := none, triageDate := 0,
     notes := "", name := "", mrn := "", ward := "" }]

/-! ## Invariant preservation and endpoint behaviour -/

theorem applyOp_preserves_inv (store : List EchoRequest) (op : StoreOp)
    (h : store.all completionInvariant = true) :
    (applyOp store op).all completionInvariant = true := by
  cases op with
  | add holidays newId year seq today payload =>
    simp only [applyOp, add_request, List.all_append, h, Bool.true_and]
    simp [completionInvariant]
  | markCompleted reqId now =>
    rw [List.all_eq_true] at h ⊢
    intro r hr
    simp only [applyOp, mark_completed, List.mem_map] at hr
    obtain ⟨r0, hr0, rfl⟩ := hr
    by_cases hid : r0.id = reqId
    · simp [hid, completionInvariant]
    · simpa [hid] using h r0 hr0
  | undoCompleted reqId =>
    rw [List.all_eq_true] at h ⊢
    intro r hr
    simp only [applyOp, undo_completed, List.mem_map] at hr
    obtain ⟨r0, hr0, rfl⟩ := hr
    by_cases hid : r0.id = reqId
    · simp [hid, completionInvariant]
    · simpa [hid] using h r0 hr0
  | deleteReq reqId =>
    rw [List.all_eq_true] at h ⊢
    intro r hr
    simp only [applyOp, delete_request, List.mem_filter] at hr
    exact h r hr.1
  | updateNotes reqId v =>
    rw [List.all_eq_true] at h ⊢
    intro r hr
    simp only [applyOp, update_field, List.mem_map] at hr
    obtain ⟨r0, hr0, rfl⟩ := hr
    by_cases hid : r0.id = reqId
    · have h0 := h r0 hr0
      simp only [completionInvariant] at h0 ⊢
      simpa [hid, set_notes] using h0
    · simpa [hid] using h r0 hr0
  | updateName reqId v =>
    rw [List.all_eq_true] at h ⊢
    intro r hr
    simp only [applyOp, update_field, List.mem_map] at hr
    obtain ⟨r0, hr0, rfl⟩ := hr
    by_cases hid : r0.id = reqId
    · have h0 := h r0 hr0
      simp only [completionInvariant] at h0 ⊢
      simpa [hid, set_name] using h0
    · simpa [hid] using h r0 hr0
  | updateMrn reqId v =>
    rw [List.all_eq_true] at h ⊢
    intro r hr
    simp only [applyOp, update_field, List.mem_map] at hr
    obtain ⟨r0, hr0, rfl⟩ := hr
    by_cases hid : r0.id = reqId
    · have h0 := h r0 hr0
      simp only [completionInvariant] at h0 ⊢
      simpa [hid, set_mrn] using h0
    · simpa [hid] using h r0 hr0
  | updateWard reqId v =>
    rw [List.all_eq_true] at h ⊢
    intro r hr
    simp only [applyOp, update_field, List.mem_map] at hr
    obtain ⟨r0, hr0, rfl⟩ := hr
    by_cases hid : r0.id = reqId
    · have h0 := h r0 hr0
      simp only [completionInvariant] at h0 ⊢
      simpa [hid, set_ward] using h0
    · simpa [hid] using h r0 hr0

/-- C9: starting from the empty table, after any sequence of create,
mark-completed, undo-completed, delete and descriptive-field update
operations, every stored request has a non-null `completion_time` exactly
when its status is `'completed'`: creation inserts PENDING with NULL
completion time, `mark_completed` sets both together, `undo_completed`
clears both together, and the descriptive updates touch neither. -/
theorem C9_completion_invariant (ops : List StoreOp) :
    (applyOps ops []).all completionInvariant = true := by
  suffices h : ∀ store, store.all completionInvariant = true →
      (applyOps ops store).all completionInvariant = true from h [] rfl
  induction ops with
  | nil => intro store h; exact h
  | cons op ops ih =>
    intro store h
    exact ih (applyOp store op) (applyOp_preserves_inv store op h)

/-- C3 counterexample: on a store whose only id is 1, marking, undoing and
deleting the absent id 99 all report success — none of the three endpoints
produces a not-found failure. -/
theorem C3_counterexample :
    (∀ r ∈ ex3store, r.id ≠ 99) ∧
    (mark_completed ex3store 99 5).1 = ApiResult.success ∧
    (undo_completed ex3store 99).1 = ApiResult.success ∧
    (delete_request ex3store 99).1 = ApiResult.success := by
  refine ⟨by decide, rfl, rfl, rfl⟩

/-- C3 amended: for an id absent from the store, `mark_completed`,
`undo_completed` and `delete_request` leave the store unchanged but report
success (no NotFound error is raised; the UPDATE/DELETE row count is never
inspected). -/
theorem C3_amended (store : List EchoRequest) (reqId t : Nat)
    (h : ∀ r ∈ store, r.id ≠ reqId) :
    mark_completed store reqId t = (ApiResult.success, store) ∧
    undo_completed store reqId = (ApiResult.success, store) ∧
    delete_request store reqId = (ApiResult.success, store) := by
  refine ⟨?_, ?_, ?_⟩
  · unfold mark_completed
    rw [Prod.mk.injEq]
    refine ⟨rfl, ?_⟩
    have hcong : store.map (fun r =>
        if r.id = reqId then
          { r with status := Status.completed, completionTime := some t }
        else r) = store.map id :=
      List.map_congr_left fun r hr => if_neg (h r hr)
    rw [hcong, List.map_id]
  · unfold undo_completed
    rw [Prod.mk.injEq]
    refine ⟨rfl, ?_⟩
    have hcong : store.map (fun r =>
        if r.id = reqId then
          { r with status := Status.pending, completionTime := none }
        else r) = store.map id :=
      List.map_congr_left fun r hr => if_neg (h r hr)
    rw [hcong, List.map_id]
  · unfold delete_request
    rw [Prod.mk.injEq]
    refine ⟨rfl, ?_⟩
    rw [List.filter_eq_self]
    intro r hr
    exact decide_eq_true (h r hr)

theorem C3_witness :
    mark_completed ex3store 99 5 = (ApiResult.success, ex3store) ∧
    undo_completed ex3store 99 = (ApiResult.success, ex3store) ∧
    delete_request ex3store 99 = (ApiResult.success, ex3store) :=
  C3_amended ex3store 99 5 (by decide)

/-! ## Deadline calculator -/

/-- The pathway-to-hours mapping stated by the specification (§4.2):
PURPLE→1, RED→24, AMBER→72, GREEN/REJECTED→0. -/
def sla_hours : Pathway → Int
  | .purple => 1
  | .red => 24
  | .amber => 72
  | .green => 0
  | .rejected => 0

/-- C5: the expected time `add_request` stores is `add_working_hours_uk`
of the request time with the pathway's SLA hours (1/24/72), and for GREEN
and REJECTED it is the request time itself. -/
theorem C5_expected_time (holidays : List Nat) (p : Pathway) (rt : Nat) :
    add_request_expected_time holidays p rt
      = add_working_hours_uk holidays rt (sla_hours p) ∧
    ((p = Pathway.green ∨ p = Pathway.rejected) →
      add_request_expected_time holidays p rt = rt) := by
  cases p <;>
    simp [add_request_expected_time, sla_hours, add_working_hours_uk,
      addWorkingHoursLoop, Int.toNat]

theorem C5_witness :
    add_request_expected_time [] Pathway.green 540
      = add_working_hours_uk [] 540 (sla_hours Pathway.green) ∧
    add_request_expected_time [] Pathway.green 540 = 540 :=
  ⟨(C5_expected_time [] Pathway.green 540).1,
   (C5_expected_time [] Pathway.green 540).2 (Or.inl rfl)⟩

/-- C8: requesting zero working hours returns the start timestamp
unchanged — the loop body never runs. -/
theorem C8_zero_hours (holidays : List Nat) (t : Nat) :
    add_working_hours_uk holidays t 0 = t := rfl

/-- C10: for any non-positive `hours` — including the negative values the
specification declares invalid — `add_working_hours_uk` is total and
returns the start unchanged: the guard `remaining_hours > 0` fails at once
and no error is raised. -/
theorem C10_nonpositive_hours (holidays : List Nat) (t : Nat) (hours : Int)
    (h : hours ≤ 0) : add_working_hours_uk holidays t hours = t := by
  unfold add_working_hours_uk
  rw [Int.toNat_of_nonpos h]
  rfl

theorem C10_witness : add_working_hours_uk [] 777 (-5) = 777 :=
  C10_nonpositive_hours [] 777 (-5) (by decide)

/-! ## Timezone handling -/

/-- C7 counterexample: with Europe/London one hour ahead of UTC (British
Summer Time), a naive 09:00 input (wall minute 540) is stored as 10:00
London time (600), not 09:00 — the code localizes naive datetimes to UTC,
not to the reference timezone. -/
theorem C7_counterexample :
    iso_to_uk_time (fun _ => 60) { wall := 540, tzOffset := none } = 600 ∧
    (600 : Int) ≠ 540 := by
  exact ⟨rfl, by decide⟩

/-- C7 amended: a naive timestamp entering `iso_to_uk_time` is localized to
UTC and then converted, so the stored London wall-clock reading is the input
reading plus the London UTC offset at that instant; it equals the input only
when the offset is zero (GMT, winter). Only `add_working_hours_uk` tags its
naive argument with Europe/London directly. -/
theorem C7_amended (londonOffset : Int → Int) (w : Int) :
    iso_to_uk_time londonOffset { wall := w, tzOffset := none }
      = w + londonOffset w := by
  unfold iso_to_uk_time convert_to_uk_time
  simp

/-! ## Daily overdue reconstruction -/

/-- C1 counterexample: an AMBER request whose deadline was minute 1439 of
day 0 and which was completed exactly at the first instant of day 1 is
counted overdue on day 1 by the code, although the specification's
condition (pending, or completed strictly after day 1 began) rejects it. -/
theorem C1_counterexample :
    overdue_on_day ex1req 1 = true ∧ spec_overdue_on_day ex1req 1 = false := by
  decide

/-- C1 amended: the daily-overdue join counts a request on day `d` iff the
specification's condition holds or the one extra case the code admits does:
the request was completed exactly at the first instant of day `d`, later
than its deadline. -/
theorem C1_overdue_condition (r : EchoRequest) (d : Nat) :
    overdue_on_day r d = amended_overdue_on_day r d := by
  unfold overdue_on_day amended_overdue_on_day dayStart
  rw [Bool.eq_iff_iff]
  cases hs : r.status <;> cases hct : r.completionTime
  · simp
  · simp
  · simp
  · simp only [Bool.and_eq_true, Bool.or_eq_true, decide_eq_true_eq, reduceCtorEq,
      false_or, false_and, true_and]
    constructor <;> rintro ⟨h1, h5⟩ <;> exact ⟨h1, by omega⟩

/-! ## Friday working-hours example -/

/-- C6 counterexample: with no holidays configured, adding one working hour
to Friday 09:00 (minute 6300 of the Monday-epoch week) yields Friday 10:00
(6360): the resulting hour still lies on Friday, a working day, so the
weekend is never reached — not Monday 09:00 (10620) as claimed. -/
theorem C6_counterexample :
    add_working_hours_uk [] 6300 1 = 6360 ∧ (6360 : Nat) ≠ 10620 := by
  constructor
  · have h := addWorkingHoursLoop_of_all_working [] 1 6300 (by decide)
    simpa using h
  · decide

/-- C6 amended: `add_working_hours_uk` with no holidays maps Friday 09:00
and one hour to Friday 10:00; it is 24 hours that land on Monday 09:00,
with Saturday and Sunday skipped entirely (the counted hours are Friday
10:00-23:00 and Monday 00:00-09:00). -/
theorem C6_friday_weekend :
    add_working_hours_uk [] 6300 1 = 6360 ∧
    add_working_hours_uk [] 6300 24 = 10620 := by
  constructor
  · have h := addWorkingHoursLoop_of_all_working [] 1 6300 (by decide)
    simpa using h
  · have h14 : addWorkingHoursLoop [] 6300 14 = 7140 := by
      have h := addWorkingHoursLoop_of_all_working [] 14 6300 (by decide)
      simpa using h
    have hsplit : addWorkingHoursLoop [] 6300 24 = addWorkingHoursLoop [] 7140 10 := by
      have h := addWorkingHoursLoop_add [] 14 10 6300
      norm_num at h
      rw [h, h14]
    have hjump : nextCountedHour [] 7140 = 10080 := by
      have h := nextCountedHour_eq [] 7140 49 (by omega) (by decide) (by decide)
      norm_num at h
      exact h
    have h10 : addWorkingHoursLoop [] 7140 10 = addWorkingHoursLoop [] 10080 9 := by
      show addWorkingHoursLoop [] (nextCountedHour [] 7140) 9 = _
      rw [hjump]
    have h9 : addWorkingHoursLoop [] 10080 9 = 10620 := by
      have h := addWorkingHoursLoop_of_all_working [] 9 10080 (by decide)
      simpa using h
    show addWorkingHoursLoop [] 6300 (Int.toNat 24) = 10620
    rw [show Int.toNat 24 = 24 from rfl, hsplit, h10, h9]

/-! ## Display ordering -/

theorem tier_cases (r : EchoRequest) : tier r = 1 ∨ tier r = 2 ∨ tier r = 3 := by
  unfold tier
  split_ifs <;> simp

theorem sortKey3_of_tier_one (r : EchoRequest) (h : tier r = 1) : sortKey3 r = 0 := by
  unfold tier at h
  unfold sortKey3
  split_ifs at h ⊢ <;> simp_all

theorem sortKey3_of_tier_two (r : EchoRequest) (h : tier r = 2) :
    sortKey3 r = -(castDisplayId r) := by
  unfold tier at h
  unfold sortKey3
  split_ifs at h ⊢ <;> simp_all

theorem sortKey3_of_tier_three (r : EchoRequest) (h : tier r = 3) :
    sortKey3 r = -((r.completionTime.getD 0 : Nat) : Int) := by
  unfold tier at h
  unfold sortKey3
  split_ifs at h ⊢ <;> simp_all

theorem reqOrder_imp_amended (now : Nat) (a b : EchoRequest) (h : reqOrder now a b) :
    amendedOrder now a b := by
  simp only [reqOrder, requestsLE, Bool.or_eq_true, Bool.and_eq_true,
    decide_eq_true_eq] at h
  unfold amendedOrder
  rcases h with hlt | ⟨heq, hk⟩
  · exact Or.inl hlt
  refine Or.inr ⟨heq, ?_⟩
  have htb : tier b = tier a := heq.symm
  rcases tier_cases a with ht | ht | ht
  · left
    refine ⟨ht, ?_⟩
    have ha2 : sortKey2 now a = time_left now a := by simp [sortKey2, ht]
    have hb2 : sortKey2 now b = time_left now b := by simp [sortKey2, htb.trans ht]
    rw [ha2, hb2] at hk
    omega
  · right; left
    refine ⟨ht, ?_⟩
    have ha2 : sortKey2 now a = 0 := by simp [sortKey2, ht]
    have hb2 : sortKey2 now b = 0 := by simp [sortKey2, htb.trans ht]
    have ha3 := sortKey3_of_tier_two a ht
    have hb3 := sortKey3_of_tier_two b (htb.trans ht)
    rw [ha2, hb2, ha3, hb3] at hk
    omega
  · right; right
    refine ⟨ht, ?_⟩
    have ha2 : sortKey2 now a = 0 := by simp [sortKey2, ht]
    have hb2 : sortKey2 now b = 0 := by simp [sortKey2, htb.trans ht]
    have ha3 := sortKey3_of_tier_three a ht
    have hb3 := sortKey3_of_tier_three b (htb.trans ht)
    rw [ha2, hb2, ha3, hb3] at hk
    omega

/-- C2 counterexample: on a store holding a completed GREEN request with
sequence 3 and two pending GREEN requests with sequences 1 and 2,
`get_requests` does not order the rows as the claim's tiers demand: the
completed GREEN row falls to the completed tier (and tier 2 is not sorted by
the sequence component), so the output violates the claimed order. -/
theorem C2_counterexample :
    ¬ List.Sorted (fun a b => claimOrderLE 0 a b = true)
      (get_requests [exReqA, exReqB, exReqC] 0) := by
  decide

/-- C2 amended: `get_requests` returns all rows ordered in three tiers where
every completed request — GREEN/REJECTED included — forms tier 3 sorted by
descending completion time, the remaining GREEN/REJECTED requests form tier
2 sorted by descending `CAST(request_id AS INTEGER)` (the two-digit year
prefix of the display id, not its sequence component), and the remaining
pending SLA requests form tier 1 sorted by ascending `expectedTime − now`;
ties keep table order. -/
theorem C2_ordering (store : List EchoRequest) (now : Nat) :
    (get_requests store now).Perm store ∧
    List.Sorted (amendedOrder now) (get_requests store now) := by
  constructor
  · exact List.perm_insertionSort _ _
  · have hs := List.sorted_insertionSort (reqOrder now) store
    exact hs.imp fun {a b} h => reqOrder_imp_amended now a b h

/-! ## Display-id allocation -/

theorem strLtB_append_left (p x y : List Char) :
    strLtB (p ++ x) (p ++ y) = strLtB x y := by
  induction p with
  | nil => rfl
  | cons c p ih =>
    simp only [List.cons_append, strLtB, lt_irrefl, if_false]
    exact ih

theorem strLtB_four (c1 c2 c3 c4 d1 d2 d3 d4 : Char) :
    strLtB [c1, c2, c3, c4] [d1, d2, d3, d4] =
      (if c1 < d1 then true else if d1 < c1 then false else
       if c2 < d2 then true else if d2 < c2 then false else
       if c3 < d3 then true else if d3 < c3 then false else
       if c4 < d4 then true else false) := by
  simp only [strLtB, ite_self]

theorem digitChar_lt_iff (d e : Nat) (hd : d ≤ 9) (he : e ≤ 9) :
    (Char.ofNat (48 + d) < Char.ofNat (48 + e)) ↔ d < e := by
  interval_cases d <;> interval_cases e <;> decide

theorem strLtB_seqChars_iff (a b : Nat) (ha : a ≤ 9999) (hb : b ≤ 9999) :
    strLtB (seqChars a) (seqChars b) = true ↔ a < b := by
  unfold seqChars
  rw [if_pos (by omega), if_pos (by omega), strLtB_four]
  have e1 := digitChar_lt_iff (a / 1000) (b / 1000) (by omega) (by omega)
  have e1r := digitChar_lt_iff (b / 1000) (a / 1000) (by omega) (by omega)
  have e2 := digitChar_lt_iff (a / 100 % 10) (b / 100 % 10) (by omega) (by omega)
  have e2r := digitChar_lt_iff (b / 100 % 10) (a / 100 % 10) (by omega) (by omega)
  have e3 := digitChar_lt_iff (a / 10 % 10) (b / 10 % 10) (by omega) (by omega)
  have e3r := digitChar_lt_iff (b / 10 % 10) (a / 10 % 10) (by omega) (by omega)
  have e4 := digitChar_lt_iff (a % 10) (b % 10) (by omega) (by omega)
  simp only [e1, e1r, e2, e2r, e3, e3r, e4]
  split_ifs <;> simp <;> omega

theorem strLtB_reqIdChars_iff (year m s : Nat) (hm : m ≤ 9999) (hs : s ≤ 9999) :
    strLtB (reqIdChars year m) (reqIdChars year s) = true ↔ m < s := by
  have h1 : reqIdChars year m = ((Nat.repr year).data ++ ['.']) ++ seqChars m := by
    unfold reqIdChars
    simp
  have h2 : reqIdChars year s = ((Nat.repr year).data ++ ['.']) ++ seqChars s := by
    unfold reqIdChars
    simp
  rw [h1, h2, strLtB_append_left]
  exact strLtB_seqChars_iff m s hm hs

theorem lastRequestSeq_loop_eq_max (year : Nat) (seqs : List Nat) :
    ∀ m : Nat, m ≤ 9999 → (∀ s ∈ seqs, s ≤ 9999) →
      (seqs.foldl
        (fun acc s =>
          match acc with
          | none => some s
          | some m => if strLtB (reqIdChars year m) (reqIdChars year s) then some s
                      else some m)
        (some m))
      = some (seqs.foldl max m) := by
  induction seqs with
  | nil => intro m _ _; rfl
  | cons s rest ih =>
    intro m hm hall
    have hs : s ≤ 9999 := hall s (List.mem_cons_self s rest)
    simp only [List.foldl]
    by_cases hlt : m < s
    · rw [if_pos ((strLtB_reqIdChars_iff year m s hm hs).mpr hlt)]
      have hmax : max m s = s := by omega
      rw [hmax]
      exact ih s hs fun x hx => hall x (List.mem_cons_of_mem s hx)
    · rw [if_neg (by
        intro hcon
        exact hlt ((strLtB_reqIdChars_iff year m s hm hs).mp hcon))]
      have hmax : max m s = m := by omega
      rw [hmax]
      exact ih m hm fun x hx => hall x (List.mem_cons_of_mem s hx)

theorem get_next_request_id_eq_max (year : Nat) (seqs : List Nat) (hne : seqs ≠ [])
    (hall : ∀ s ∈ seqs, s ≤ 9999) :
    get_next_request_id year seqs = seqs.foldl max 0 + 1 := by
  unfold get_next_request_id lastRequestSeq
  cases seqs with
  | nil => exact absurd rfl hne
  | cons s rest =>
    simp only [List.foldl]
    rw [lastRequestSeq_loop_eq_max year rest s (hall s (List.mem_cons_self s rest))
      (fun x hx => hall x (List.mem_cons_of_mem s hx))]
    rw [Nat.zero_max]

theorem foldl_max_range' (k : Nat) : (List.range' 1 k).foldl max 0 = k := by
  induction k with
  | zero => rfl
  | succ n ih =>
    rw [List.range'_concat, List.foldl_append, ih]
    simp
    omega

theorem runIdOps_creates (year : Nat) :
    ∀ (n k : Nat), k + n ≤ 9999 →
      (runIdOps year (List.replicate n IdOp.create) (List.range' 1 k)).2
        = List.range' (k + 1) n := by
  intro n
  induction n with
  | zero => intro k _; rfl
  | succ n ih =>
    intro k hk
    rw [List.replicate_succ]
    simp only [runIdOps]
    have hnext : get_next_request_id year (List.range' 1 k) = k + 1 := by
      cases k with
      | zero => rfl
      | succ k0 =>
        rw [get_next_request_id_eq_max year _ (by simp [List.range'])
          (by
            intro x hx
            rw [List.mem_range'_1] at hx
            omega)]
        rw [foldl_max_range']
    have hstate : List.range' 1 k ++ [k + 1] = List.range' 1 (k + 1) := by
      rw [List.range'_concat]
      simp [Nat.add_comm]
    rw [hnext, hstate, ih (k + 1) (by omega)]
    rw [List.range'_succ]

/-- C4 counterexample: the history create, create, delete the row with
sequence 2, create hands out the sequences 1, 2, 2 — after the row holding
the year's maximum is deleted, the next create re-issues the same sequence,
so the handed-out numbers are not strictly increasing under interleaved
deletions. -/
theorem C4_counterexample :
    (runIdOps 25 [IdOp.create, IdOp.create, IdOp.remove 2, IdOp.create] []).2
      = [1, 2, 2] ∧
    ¬ List.Pairwise (fun a b : Nat => a < b) [1, 2, 2] := by
  constructor
  · decide
  · intro h
    have := List.rel_of_pairwise_cons h.tail (List.mem_cons_self 2 [])
    omega

/-- C4 amended: the first request of a year receives sequence 1 and every
later create receives the largest currently stored sequence of the year plus
one (while sequences stay below 10000, where the text order of the
zero-padded ids agrees with numeric order); consequently creates with no
interleaved deletion — and more generally any history that never deletes the
row holding the year's current maximum — hand out strictly increasing,
gapless sequences 1, 2, ..., n, but deleting the current maximum makes the
next create re-issue that number. -/
theorem C4_allocation :
    (∀ year, get_next_request_id year [] = 1) ∧
    (∀ year seqs, seqs ≠ [] → (∀ s ∈ seqs, s ≤ 9999) →
      get_next_request_id year seqs = seqs.foldl max 0 + 1) ∧
    (∀ year n, n ≤ 9999 →
      (runIdOps year (List.replicate n IdOp.create) []).2 = List.range' 1 n) := by
  refine ⟨fun year => rfl, get_next_request_id_eq_max, ?_⟩
  intro year n hn
  have h := runIdOps_creates year n 0 (by omega)
  simpa using h

theorem C4_witness :
    get_next_request_id 25 [] = 1 ∧
    get_next_request_id 25 [2, 1] = 3 ∧
    (runIdOps 25 (List.replicate 3 IdOp.create) []).2 = [1, 2, 3] := by
  refine ⟨C4_allocation.1 25, ?_, ?_⟩
  · have h := C4_allocation.2.1 25 [2, 1] (by decide) (by decide)
    rw [h]
    rfl
  · have h := C4_allocation.2.2 25 3 (by omega)
    rw [h]
    rfl

end EchoInTrack
